import Mathlib

/-!
Verification of the vision-ui security-kit randomness engine against its
natural-language specification.

The repository ships the module's test suites (src/tests/security-kit.test.js,
src/tests/security-kit-simple.test.js) and API documentation
(src/docs/security-kit.md, README), but the implementation file
src/security-kit.js itself is not present under src/.  The definitions below
are therefore modelled from the specification's own algorithm descriptions
(spec sections 4.1-4.6), constrained by the behaviour the in-repo tests pin
down (buffer sizes, bit patches, rejection-sampling draw counts, default
lengths).  Each modelled definition says so in its doc comment.

Modelling conventions:
- JavaScript argument values are a sum type JSVal; finite numbers are exact
  rationals (every numeric literal the tests use is exactly representable).
- Machine entropy is passed explicitly: byte-filling operations receive a
  function from requested byte-count to the filled buffer (or an error), and
  word-drawing operations receive an indexed stream of draws.
- Fallible operations return Except; the unbounded rejection-sampling loop is
  given explicit fuel and returns Option (none = fuel exhausted, which the
  real loop, being unbounded, never observes).
- Every public operation additionally returns the number of entropy-source
  invocations it performed, so zero-draw / one-draw claims are statable.
- Underlying entropy-source errors are an arbitrary type E, threaded through
  unchanged, so propagated unchanged is statable as propagation of the very
  same value.
-/

namespace SecurityKit

/-- Modelled from the spec: the JavaScript values callers can pass as
arguments to the public operations.  Finite numbers carry an exact rational;
NaN and the infinities are separate constructors because they are numbers that
fail the finite-integer checks; remaining constructors cover the wrong-type
inputs the tests probe (null, undefined, strings, booleans, objects, arrays). -/
inductive JSVal where
  | num (q : ℚ)
  | nan
  | posInf
  | negInf
  | nullVal
  | undef
  | strVal (s : String)
  | boolVal (b : Bool)
  | objVal
  | arrVal
deriving DecidableEq

/-- Modelled from the spec: the error taxonomy of section 7.  InvalidParameter
and CryptoUnavailable are the engine's own kinds; entropyErr wraps an
underlying entropy-source error of arbitrary type E, carried unchanged. -/
inductive KitErr (E : Type) where
  | invalidParameter
  | cryptoUnavailable
  | entropyErr (e : E)
deriving DecidableEq

/-- Largest integer the platform represents exactly (2^53 - 1). -/
def MAX_SAFE_INTEGER : Int := 2 ^ 53 - 1

/-- Smallest integer the platform represents exactly (-(2^53 - 1)). -/
def MIN_SAFE_INTEGER : Int := -(2 ^ 53 - 1)

/-- Modelled from the spec: validateNumericParam accepts exactly the finite
integer numbers within the inclusive bounds; every other JSVal (NaN,
infinities, non-integral numbers, and all non-number types) is rejected. -/
def validateNumericParam (v : JSVal) (lo hi : ℚ) : Bool :=
  match v with
  | .num q => q.den == 1 && decide (lo ≤ q) && decide (q ≤ hi)
  | _ => false

/-- Modelled from the spec: validateProbability accepts exactly the finite
numbers in the inclusive interval from 0 to 1. -/
def validateProbability (v : JSVal) : Bool :=
  match v with
  | .num q => decide (0 ≤ q) && decide (q ≤ 1)
  | _ => false

/-- The rational carried by a numeric JSVal (0 for non-numbers; only ever
read behind a successful validation, which guarantees the num case). -/
def jsNumOf (v : JSVal) : ℚ :=
  match v with
  | .num q => q
  | _ => 0

/-- Lowercase hexadecimal digit for a nibble value. -/
def hexChar (n : Nat) : Char :=
  if n < 10 then Char.ofNat (48 + n) else Char.ofNat (87 + n)

/-- A byte rendered as two lowercase hex digits, high nibble first. -/
def byteToHex (b : Nat) : List Char :=
  [hexChar (b / 16), hexChar (b % 16)]

/-- A byte buffer rendered as its concatenated lowercase hex digits. -/
def bytesToHexChars (bs : List Nat) : List Char :=
  (bs.map byteToHex).flatten

/-- Recognizer for a lowercase hexadecimal digit character. -/
def isLowerHexDigit (c : Char) : Bool :=
  (decide ('0' ≤ c) && decide (c ≤ '9')) || (decide ('a' ≤ c) && decide (c ≤ 'f'))

/-- Modelled from the spec: the default identifier length of the JS signature
generateSecureId(length = 12), per docs/security-kit.md and both test suites. -/
def DEFAULT_ID_LENGTH : Nat := 12

/-- Number of raw entropy bytes generateSecureId allocates for a requested
length: the ceiling of length / 2. -/
def idBytesNeeded (l : Nat) : Nat := (l + 1) / 2

/-- Modelled from the spec (section 4.5): generateSecureId validates the
length to an integer in 1..1024, allocates ceil(length/2) raw bytes from the
entropy source, renders each byte as two lowercase hex digits and truncates
to exactly length characters.  fill models getRandomValues on a fresh buffer
of the requested byte count; the second component of the result counts
entropy-source invocations. -/
def generateSecureId {E : Type} (lengthArg : JSVal)
    (fill : Nat → Except E (List Nat)) : Except (KitErr E) String × Nat :=
  if validateNumericParam lengthArg 1 1024 then
    let l : Nat := (jsNumOf lengthArg).num.toNat
    match fill (idBytesNeeded l) with
    | .error e => (.error (.entropyErr e), 1)
    | .ok bs => (.ok (String.mk ((bytesToHexChars bs).take l)), 1)
  else (.error .invalidParameter, 0)

/-- Modelled from the spec: calling generateSecureId with no argument applies
the default length 12 (JS default parameter). -/
def generateSecureIdNoArg {E : Type} (fill : Nat → Except E (List Nat)) :
    Except (KitErr E) String × Nat :=
  generateSecureId (.num (DEFAULT_ID_LENGTH : ℚ)) fill

/-- Version patch of UUID byte 6: keep the low nibble, set the high nibble
to 0100 (the v4 version). -/
def patchByte6 (b : Nat) : Nat := (b &&& 0x0f) ||| 0x40

/-- Variant patch of UUID byte 8: keep the low six bits, set the top two
bits to 10 (the RFC 4122 variant). -/
def patchByte8 (b : Nat) : Nat := (b &&& 0x3f) ||| 0x80

/-- Modelled from the spec (section 4.5): the unconditional version/variant
bit patches applied to the 16 freshly drawn UUID bytes. -/
def setUuidBits (bs : List Nat) : List Nat :=
  (bs.set 6 (patchByte6 (bs.getD 6 0))).set 8 (patchByte8 (bs.getD 8 0))

/-- Canonical 8-4-4-4-12 hyphenated rendering of a 16-byte buffer. -/
def formatUuid (bs : List Nat) : String :=
  String.mk (bytesToHexChars (bs.take 4) ++ ['-']
    ++ bytesToHexChars ((bs.drop 4).take 2) ++ ['-']
    ++ bytesToHexChars ((bs.drop 6).take 2) ++ ['-']
    ++ bytesToHexChars ((bs.drop 8).take 2) ++ ['-']
    ++ bytesToHexChars (bs.drop 10))

/-- The fallback UUID built from 16 raw entropy bytes: patch the version and
variant bits, then render canonically. -/
def generateUuidV4Fallback (bs : List Nat) : String :=
  formatUuid (setUuidBits bs)

/-- Modelled from the spec (section 4.5): generateSecureUUID returns the
platform's native UUID unchanged when one is available, and otherwise draws
16 raw bytes, patches the version/variant bits and renders the canonical
string.  The second component counts entropy-source invocations. -/
def generateSecureUUID {E : Type} (nativeUuid : Option String)
    (fill : Nat → Except E (List Nat)) : Except (KitErr E) String × Nat :=
  match nativeUuid with
  | some s => (.ok s, 0)
  | none =>
    match fill 16 with
    | .error e => (.error (.entropyErr e), 1)
    | .ok bs => (.ok (generateUuidV4Fallback bs), 1)

/-- Recognizer for the canonical v4 UUID shape: 36 characters grouped
8-4-4-4-12 by hyphens, every group character a lowercase hex digit, the
character at index 14 exactly the version digit 4, and the character at
index 19 (the variant nibble) one of 8, 9, a, b. -/
def uuidShapeOk : List Char → Bool
  | a1 :: a2 :: a3 :: a4 :: a5 :: a6 :: a7 :: a8 :: '-' ::
    b1 :: b2 :: b3 :: b4 :: '-' ::
    c1 :: c2 :: c3 :: c4 :: '-' ::
    d1 :: d2 :: d3 :: d4 :: '-' ::
    v1 :: v2 :: v3 :: v4 :: v5 :: v6 :: v7 :: v8 :: v9 :: v10 :: v11 :: v12 :: [] =>
      ([a1, a2, a3, a4, a5, a6, a7, a8, b1, b2, b3, b4, c1, c2, c3, c4,
        d1, d2, d3, d4, v1, v2, v3, v4, v5, v6, v7, v8, v9, v10, v11, v12].all
          isLowerHexDigit)
      && (c1 == '4')
      && (d1 == '8' || d1 == '9' || d1 == 'a' || d1 == 'b')
  | _ => false

/-- Bit width of the high-precision float extraction: the effective mantissa
width of a double, per the README's 52-bit extraction via BigUint64Array. -/
def DOUBLE_MANTISSA_BITS : Nat := 52

/-- Modelled from the spec (section 4.4): conversion of one raw entropy word
into a unit-interval value.  On the high-precision path (hi64 = true) the
64-bit word is masked to the double-mantissa bit width and divided by 2^52;
on the degraded path a 32-bit word is divided by 2^32.  Both quotients are
exactly representable as doubles, so the rational value is exact. -/
def randomUnitFloatOfWord (hi64 : Bool) (u : Nat) : ℚ :=
  if hi64 then ((u &&& (2 ^ DOUBLE_MANTISSA_BITS - 1) : Nat) : ℚ) / 2 ^ DOUBLE_MANTISSA_BITS
  else (u : ℚ) / 2 ^ 32

/-- Modelled from the spec (section 4.4): getSecureRandom draws one entropy
word (64-bit when BigUint64Array is available, else 32-bit) and converts it;
a failed draw propagates the underlying error unchanged.  The second
component counts entropy-source invocations. -/
def getSecureRandom {E : Type} (hi64 : Bool) (draw : Except E Nat) :
    Except (KitErr E) ℚ × Nat :=
  match draw with
  | .error e => (.error (.entropyErr e), 1)
  | .ok u => (.ok (randomUnitFloatOfWord hi64 u), 1)

/-- Modelled from the spec (section 4.6): shouldExecuteThrottled validates
the probability, performs exactly one unit-float draw, and returns whether
the draw is strictly below the probability. -/
def shouldExecuteThrottled {E : Type} (probability : JSVal) (hi64 : Bool)
    (draw : Except E Nat) : Except (KitErr E) Bool × Nat :=
  if validateProbability probability then
    match draw with
    | .error e => (.error (.entropyErr e), 1)
    | .ok u => (.ok (decide (randomUnitFloatOfWord hi64 u < jsNumOf probability)), 1)
  else (.error .invalidParameter, 0)

/-- Helper for leastMask: the first argument is fuel bounding the recursion
depth (any fuel at least x gives the true value, reached after at most
log2 x + 1 steps). -/
def maskAux : Nat → Nat → Nat
  | 0, _ => 0
  | fuel + 1, x => if x = 0 then 0 else 2 * maskAux fuel (x / 2) + 1

/-- The smallest bit mask of the form 2^k - 1 that is at least x (the JS
source grows the mask one bit at a time until it covers range - 1). -/
def leastMask (x : Nat) : Nat := maskAux x x

/-- Modelled from the spec (section 4.3): the rejection-sampling loop.  At
each iteration it draws one raw entropy word, masks it, accepts a masked
value strictly below range and rejects (redraws) otherwise; a failed draw
stops the loop with the underlying error.  The loop is unbounded in the
source; fuel makes it total here, with none marking fuel exhaustion.  The
first state argument is the remaining fuel, the second the index of the next
draw; the returned Nat is the total number of draws performed. -/
def sampleLoop {E : Type} (range mask : Nat) (draw : Nat → Except E Nat) :
    Nat → Nat → Option (Except E Nat × Nat)
  | 0, _ => none
  | fuel + 1, i =>
    match draw i with
    | .error e => some (.error e, i + 1)
    | .ok u =>
      if u &&& mask < range then some (.ok (u &&& mask), i + 1)
      else sampleLoop range mask draw fuel (i + 1)

/-- Modelled from the spec (section 4.3): getSecureRandomInt validates that
min and max are integers within the safe-integer bounds with min at most max,
returns min immediately (zero entropy cost) when the range has a single
value, and otherwise runs rejection sampling with the minimal covering bit
mask, returning min plus the first accepted masked draw.  All arithmetic is
exact (wide) integer arithmetic, so the full safe-integer span is addressable
without truncation.  The second component counts entropy draws. -/
def getSecureRandomInt {E : Type} (minArg maxArg : JSVal) (fuel : Nat)
    (draw : Nat → Except E Nat) : Option (Except (KitErr E) Int × Nat) :=
  if validateNumericParam minArg (MIN_SAFE_INTEGER : ℚ) (MAX_SAFE_INTEGER : ℚ)
      && validateNumericParam maxArg (jsNumOf minArg) (MAX_SAFE_INTEGER : ℚ) then
    let mi : Int := (jsNumOf minArg).num
    let ma : Int := (jsNumOf maxArg).num
    let range : Nat := (ma - mi + 1).toNat
    if range = 1 then some (.ok mi, 0)
    else
      match sampleLoop range (leastMask (range - 1)) draw fuel 0 with
      | none => none
      | some (.error e, k) => some (.error (.entropyErr e), k)
      | some (.ok v, k) => some (.ok (mi + (v : Int)), k)
  else some (.error .invalidParameter, 0)

/-! ### Helper lemmas: the minimal covering bit mask -/

lemma maskAux_spec (fuel : Nat) : ∀ x, x ≤ fuel →
    x ≤ maskAux fuel x ∧ ∀ k, x < 2 ^ k → maskAux fuel x < 2 ^ k := by
  induction fuel with
  | zero =>
    intro x hx
    have hx0 : x = 0 := Nat.le_zero.mp hx
    subst hx0
    exact ⟨Nat.le_refl 0, fun k hk => hk⟩
  | succ fuel ih =>
    intro x hx
    by_cases h0 : x = 0
    · subst h0
      simp only [maskAux, if_pos rfl]
      exact ⟨Nat.le_refl 0, fun k hk => hk⟩
    · have hdiv : x / 2 ≤ fuel := by omega
      obtain ⟨ih1, ih2⟩ := ih (x / 2) hdiv
      simp only [maskAux, if_neg h0]
      constructor
      · omega
      · intro k hk
        cases k with
        | zero => simp at hk; omega
        | succ k =>
          have hk2 : x / 2 < 2 ^ k := by
            have := pow_succ 2 k
            omega
          have := ih2 k hk2
          have := pow_succ 2 k
          omega

lemma leastMask_le (x : Nat) : x ≤ leastMask x :=
  (maskAux_spec x x (Nat.le_refl x)).1

lemma leastMask_min (x : Nat) : ∀ k, x < 2 ^ k → leastMask x < 2 ^ k :=
  (maskAux_spec x x (Nat.le_refl x)).2

lemma maskAux_pow_form (fuel : Nat) : ∀ x, ∃ j, maskAux fuel x = 2 ^ j - 1 := by
  induction fuel with
  | zero => intro x; exact ⟨0, rfl⟩
  | succ fuel ih =>
    intro x
    by_cases h0 : x = 0
    · subst h0; exact ⟨0, by simp [maskAux]⟩
    · obtain ⟨j, hj⟩ := ih (x / 2)
      refine ⟨j + 1, ?_⟩
      simp only [maskAux, if_neg h0, hj, pow_succ]
      have : 1 ≤ 2 ^ j := Nat.one_le_two_pow
      omega

lemma leastMask_pow_form (x : Nat) : ∃ j, leastMask x = 2 ^ j - 1 :=
  maskAux_pow_form x x

/-! ### Helper lemmas: the rejection-sampling loop -/

lemma sampleLoop_ok_lt {E : Type} (range mask : Nat) (draw : Nat → Except E Nat) :
    ∀ fuel i v k, sampleLoop range mask draw fuel i = some (.ok v, k) → v < range := by
  intro fuel
  induction fuel with
  | zero => intro i v k h; simp [sampleLoop] at h
  | succ fuel ih =>
    intro i v k h
    cases hd : draw i with
    | error e => simp only [sampleLoop, hd] at h; simp at h
    | ok u =>
      simp only [sampleLoop, hd] at h
      by_cases hlt : u &&& mask < range
      · rw [if_pos hlt] at h
        simp at h
        omega
      · rw [if_neg hlt] at h
        exact ih (i + 1) v k h

lemma sampleLoop_stream_char {E : Type} (range mask : Nat) (stream : Nat → Nat) :
    ∀ fuel i v k,
      sampleLoop (E := E) range mask (fun j => Except.ok (stream j)) fuel i =
        some (.ok v, k) →
      i < k ∧ v = stream (k - 1) &&& mask ∧ v < range ∧
        ∀ j, i ≤ j → j < k - 1 → range ≤ stream j &&& mask := by
  intro fuel
  induction fuel with
  | zero => intro i v k h; simp [sampleLoop] at h
  | succ fuel ih =>
    intro i v k h
    simp only [sampleLoop] at h
    by_cases hlt : stream i &&& mask < range
    · rw [if_pos hlt] at h
      simp at h
      obtain ⟨hv, hk⟩ := h
      subst hv
      refine ⟨by omega, by rw [← hk]; simp, hlt, ?_⟩
      intro j hj1 hj2
      omega
    · rw [if_neg hlt] at h
      obtain ⟨h1, h2, h3, h4⟩ := ih (i + 1) v k h
      refine ⟨by omega, h2, h3, ?_⟩
      intro j hj1 hj2
      rcases Nat.eq_or_lt_of_le hj1 with hj | hj
      · subst hj; omega
      · exact h4 j hj hj2

/-! ### Helper lemmas: hex rendering -/

lemma hexChar_lowerHex : ∀ n, n < 16 → isLowerHexDigit (hexChar n) = true := by decide

lemma isLowerHexDigit_div {b : Nat} (h : b < 256) :
    isLowerHexDigit (hexChar (b / 16)) = true :=
  hexChar_lowerHex _ (by omega)

lemma isLowerHexDigit_mod (b : Nat) : isLowerHexDigit (hexChar (b % 16)) = true :=
  hexChar_lowerHex _ (by omega)

lemma bytesToHexChars_length (bs : List Nat) :
    (bytesToHexChars bs).length = 2 * bs.length := by
  induction bs with
  | nil => rfl
  | cons b bs ih =>
    simp only [bytesToHexChars, List.map_cons, List.flatten_cons, List.length_append,
      List.length_cons, byteToHex, List.length_nil] at *
    omega

lemma bytesToHexChars_mem (bs : List Nat) (hb : ∀ b ∈ bs, b < 256) :
    ∀ c ∈ bytesToHexChars bs, isLowerHexDigit c = true := by
  intro c hc
  simp only [bytesToHexChars, List.mem_flatten, List.mem_map] at hc
  obtain ⟨cs, ⟨b, hbmem, rfl⟩, hcb⟩ := hc
  have hblt := hb b hbmem
  simp only [byteToHex, List.mem_cons, List.not_mem_nil, or_false] at hcb
  rcases hcb with rfl | rfl
  · exact isLowerHexDigit_div hblt
  · exact isLowerHexDigit_mod b

/-! ### Helper lemmas: validation -/

lemma validateNumericParam_intCast (a : Int) (lo hi : ℚ) :
    validateNumericParam (.num (a : ℚ)) lo hi = (decide (lo ≤ (a : ℚ)) && decide ((a : ℚ) ≤ hi)) := by
  simp [validateNumericParam]

lemma validateNumericParam_intCast_true (a : Int) (lo hi : ℚ)
    (h1 : lo ≤ (a : ℚ)) (h2 : (a : ℚ) ≤ hi) :
    validateNumericParam (.num (a : ℚ)) lo hi = true := by
  simp [validateNumericParam, h1, h2]

lemma validateNumericParam_natCast_true (n : Nat) (lo hi : ℚ)
    (h1 : lo ≤ (n : ℚ)) (h2 : (n : ℚ) ≤ hi) :
    validateNumericParam (.num (n : ℚ)) lo hi = true := by
  simp [validateNumericParam, h1, h2]

/-! ### Helper lemmas: generateSecureId -/

lemma generateSecureId_ok_char {E : Type} (l : Nat) (h1 : 1 ≤ l) (h2 : l ≤ 1024)
    (fill : Nat → Except E (List Nat)) (bytes : List Nat)
    (hfill : fill (idBytesNeeded l) = .ok bytes) :
    generateSecureId (.num (l : ℚ)) fill =
      (.ok (String.mk ((bytesToHexChars bytes).take l)), 1) := by
  have hv : validateNumericParam (.num (l : ℚ)) 1 1024 = true :=
    validateNumericParam_natCast_true l 1 1024 (by exact_mod_cast h1) (by exact_mod_cast h2)
  simp [generateSecureId, hv, jsNumOf, hfill]

lemma generateSecureId_length (l : Nat) (bytes : List Nat)
    (hlen : bytes.length = idBytesNeeded l) :
    (String.mk ((bytesToHexChars bytes).take l)).length = l := by
  have hb := bytesToHexChars_length bytes
  simp only [String.length, List.length_take]
  simp only [idBytesNeeded] at hlen
  omega

/-! ### Helper lemmas: the unit-interval float -/

lemma randomUnitFloat_nonneg (hi64 : Bool) (u : Nat) :
    0 ≤ randomUnitFloatOfWord hi64 u := by
  unfold randomUnitFloatOfWord
  split <;> positivity

lemma randomUnitFloat_lt_one (hi64 : Bool) (u : Nat) (hu : hi64 = false → u < 2 ^ 32) :
    randomUnitFloatOfWord hi64 u < 1 := by
  unfold randomUnitFloatOfWord
  split
  next h =>
    rw [div_lt_one (by positivity)]
    have hle := Nat.and_le_right (n := u) (m := 2 ^ DOUBLE_MANTISSA_BITS - 1)
    have hpos : 0 < 2 ^ DOUBLE_MANTISSA_BITS := Nat.pos_pow_of_pos _ (by norm_num)
    have hm : u &&& (2 ^ DOUBLE_MANTISSA_BITS - 1) < 2 ^ DOUBLE_MANTISSA_BITS := by omega
    exact_mod_cast hm
  next h =>
    rw [div_lt_one (by positivity)]
    have := hu (by simpa using h)
    exact_mod_cast this

lemma randomUnitFloat_zero (hi64 : Bool) : randomUnitFloatOfWord hi64 0 = 0 := by
  unfold randomUnitFloatOfWord
  split <;> simp

/-! ### Helper lemmas: getSecureRandomInt on valid arguments -/

lemma getSecureRandomInt_eq_of_valid {E : Type} (mi ma : Int)
    (h1 : MIN_SAFE_INTEGER ≤ mi) (h2 : ma ≤ MAX_SAFE_INTEGER) (hle : mi ≤ ma)
    (fuel : Nat) (draw : Nat → Except E Nat) :
    getSecureRandomInt (.num (mi : ℚ)) (.num (ma : ℚ)) fuel draw =
      (if (ma - mi + 1).toNat = 1 then some (.ok mi, 0)
       else
        match sampleLoop (ma - mi + 1).toNat (leastMask ((ma - mi + 1).toNat - 1))
            draw fuel 0 with
        | none => none
        | some (.error e, k) => some (.error (.entropyErr e), k)
        | some (.ok v, k) => some (.ok (mi + (v : Int)), k)) := by
  have hv1 : validateNumericParam (.num (mi : ℚ)) (MIN_SAFE_INTEGER : ℚ)
      (MAX_SAFE_INTEGER : ℚ) = true :=
    validateNumericParam_intCast_true mi _ _ (by exact_mod_cast h1)
      (by exact_mod_cast le_trans hle h2)
  have hv2 : validateNumericParam (.num (ma : ℚ)) (jsNumOf (.num (mi : ℚ)))
      (MAX_SAFE_INTEGER : ℚ) = true := by
    simpa [jsNumOf] using
      validateNumericParam_intCast_true ma ((mi : Int) : ℚ) _ (by exact_mod_cast hle)
        (by exact_mod_cast h2)
  simp only [jsNumOf] at hv2
  simp [getSecureRandomInt, hv1, hv2, jsNumOf]

/-! ### Helper lemmas: UUID bit patches -/

lemma patch6_div (b : Nat) : hexChar (patchByte6 b / 16) = '4' := by
  have h : b &&& 15 < 16 := Nat.lt_succ_of_le Nat.and_le_right
  have key : ∀ a, a < 16 → hexChar ((a ||| 64) / 16) = '4' := by decide
  simpa only [patchByte6] using key _ h

lemma patch6_lt (b : Nat) : patchByte6 b < 256 := by
  have h : b &&& 15 < 16 := Nat.lt_succ_of_le Nat.and_le_right
  have key : ∀ a, a < 16 → (a ||| 64) < 256 := by decide
  simpa only [patchByte6] using key _ h

lemma patch8_div (b : Nat) :
    hexChar (patchByte8 b / 16) = '8' ∨ hexChar (patchByte8 b / 16) = '9' ∨
    hexChar (patchByte8 b / 16) = 'a' ∨ hexChar (patchByte8 b / 16) = 'b' := by
  have h : b &&& 63 < 64 := Nat.lt_succ_of_le Nat.and_le_right
  have key : ∀ a, a < 64 →
      (hexChar ((a ||| 128) / 16) = '8' ∨ hexChar ((a ||| 128) / 16) = '9' ∨
       hexChar ((a ||| 128) / 16) = 'a' ∨ hexChar ((a ||| 128) / 16) = 'b') := by decide
  simpa only [patchByte8] using key _ h

lemma patch8_lt (b : Nat) : patchByte8 b < 256 := by
  have h : b &&& 63 < 64 := Nat.lt_succ_of_le Nat.and_le_right
  have key : ∀ a, a < 64 → (a ||| 128) < 256 := by decide
  simpa only [patchByte8] using key _ h

lemma generateUuidV4Fallback_data
    (b0 b1 b2 b3 b4 b5 b6 b7 b8 b9 b10 b11 b12 b13 b14 b15 : Nat) :
    (generateUuidV4Fallback
        [b0, b1, b2, b3, b4, b5, b6, b7, b8, b9, b10, b11, b12, b13, b14, b15]).data =
      [hexChar (b0 / 16), hexChar (b0 % 16), hexChar (b1 / 16), hexChar (b1 % 16),
       hexChar (b2 / 16), hexChar (b2 % 16), hexChar (b3 / 16), hexChar (b3 % 16), '-',
       hexChar (b4 / 16), hexChar (b4 % 16), hexChar (b5 / 16), hexChar (b5 % 16), '-',
       hexChar (patchByte6 b6 / 16), hexChar (patchByte6 b6 % 16),
       hexChar (b7 / 16), hexChar (b7 % 16), '-',
       hexChar (patchByte8 b8 / 16), hexChar (patchByte8 b8 % 16),
       hexChar (b9 / 16), hexChar (b9 % 16), '-',
       hexChar (b10 / 16), hexChar (b10 % 16), hexChar (b11 / 16), hexChar (b11 % 16),
       hexChar (b12 / 16), hexChar (b12 % 16), hexChar (b13 / 16), hexChar (b13 % 16),
       hexChar (b14 / 16), hexChar (b14 % 16), hexChar (b15 / 16), hexChar (b15 % 16)] :=
  rfl

/-! ### Claim theorems -/

/-- C9: for every integer x within the safe-integer bounds, getSecureRandomInt
with min = max = x returns x and performs zero entropy draws, whatever the
fuel and whatever the entropy source would have produced. -/
theorem claim_C9_single_value_no_draw {E : Type} (x : Int)
    (h1 : MIN_SAFE_INTEGER ≤ x) (h2 : x ≤ MAX_SAFE_INTEGER)
    (fuel : Nat) (draw : Nat → Except E Nat) :
    getSecureRandomInt (.num (x : ℚ)) (.num (x : ℚ)) fuel draw = some (.ok x, 0) := by
  rw [getSecureRandomInt_eq_of_valid x x h1 h2 le_rfl]
  have hr : (x - x + 1).toNat = 1 := by omega
  simp [hr]

/-- Witness for C9 at x = 5 with an entropy source whose draws would all be
99: the result is 5 with draw count 0 (matching the repo test
getSecureRandomInt(5, 5) == 5). -/
theorem claim_C9_witness :
    getSecureRandomInt (E := Unit) (.num ((5 : Int) : ℚ)) (.num ((5 : Int) : ℚ)) 3
      (fun _ => .ok 99) = some (.ok 5, 0) :=
  claim_C9_single_value_no_draw 5 (by decide) (by decide) 3 (fun _ => .ok 99)

/-- C2: for every valid pair min ≤ max within the safe-integer bounds, every
value getSecureRandomInt successfully returns lies in the inclusive interval
[min, max]; the model computes with exact integers, so even the extreme range
MIN_SAFE_INTEGER..MAX_SAFE_INTEGER suffers no truncation. -/
theorem claim_C2_result_in_range {E : Type} (mi ma : Int)
    (h1 : MIN_SAFE_INTEGER ≤ mi) (h2 : ma ≤ MAX_SAFE_INTEGER) (hle : mi ≤ ma)
    (fuel : Nat) (draw : Nat → Except E Nat) (r : Int) (k : Nat)
    (hrun : getSecureRandomInt (.num (mi : ℚ)) (.num (ma : ℚ)) fuel draw =
      some (.ok r, k)) :
    mi ≤ r ∧ r ≤ ma := by
  rw [getSecureRandomInt_eq_of_valid mi ma h1 h2 hle] at hrun
  by_cases hr : (ma - mi + 1).toNat = 1
  · rw [if_pos hr] at hrun
    simp at hrun
    omega
  · rw [if_neg hr] at hrun
    cases hs : sampleLoop (ma - mi + 1).toNat (leastMask ((ma - mi + 1).toNat - 1))
        draw fuel 0 with
    | none => rw [hs] at hrun; simp at hrun
    | some p =>
      obtain ⟨res, k2⟩ := p
      cases res with
      | error e => rw [hs] at hrun; simp at hrun
      | ok v =>
        rw [hs] at hrun
        simp at hrun
        have hlt := sampleLoop_ok_lt _ _ draw fuel 0 v k2 hs
        omega

/-- Witness for C2 at the extreme range MIN_SAFE_INTEGER..MAX_SAFE_INTEGER
with a source whose first draw is 5: the run returns MIN_SAFE_INTEGER + 5
after one draw (matching the repo test), and the bounds hold there. -/
theorem claim_C2_witness :
    getSecureRandomInt (E := Unit) (.num ((MIN_SAFE_INTEGER : Int) : ℚ))
        (.num ((MAX_SAFE_INTEGER : Int) : ℚ)) 1 (fun _ => .ok 5) =
      some (.ok (MIN_SAFE_INTEGER + 5), 1) ∧
    (MIN_SAFE_INTEGER ≤ MIN_SAFE_INTEGER + 5 ∧ MIN_SAFE_INTEGER + 5 ≤ MAX_SAFE_INTEGER) := by
  have hrun : getSecureRandomInt (E := Unit) (.num ((MIN_SAFE_INTEGER : Int) : ℚ))
      (.num ((MAX_SAFE_INTEGER : Int) : ℚ)) 1 (fun _ => .ok 5) =
      some (.ok (MIN_SAFE_INTEGER + 5), 1) := by rfl
  exact ⟨hrun, claim_C2_result_in_range MIN_SAFE_INTEGER MAX_SAFE_INTEGER le_rfl le_rfl
    (by decide) 1 (fun _ => .ok 5) (MIN_SAFE_INTEGER + 5) 1 hrun⟩

/-- C4: every value getSecureRandom produces lies in [0, 1), on both the
high-precision path (word masked to the double-mantissa width and divided by
2^52) and the degraded 32-bit path (word below 2^32 divided by 2^32); a zero
draw yields exactly 0, which is returned as-is, not special-cased away. -/
theorem claim_C4_unit_interval {E : Type} (hi64 : Bool) (u : Nat)
    (hu : hi64 = false → u < 2 ^ 32) :
    getSecureRandom (E := E) hi64 (.ok u) = (.ok (randomUnitFloatOfWord hi64 u), 1) ∧
    0 ≤ randomUnitFloatOfWord hi64 u ∧ randomUnitFloatOfWord hi64 u < 1 ∧
    getSecureRandom (E := E) hi64 (.ok 0) = (.ok 0, 1) := by
  refine ⟨rfl, randomUnitFloat_nonneg hi64 u, randomUnitFloat_lt_one hi64 u hu, ?_⟩
  simp [getSecureRandom, randomUnitFloat_zero]

/-- Witness for C4 on both paths: the high-precision path at a word with all
bits set and the degraded path at the largest 32-bit word. -/
theorem claim_C4_witness :
    (0 ≤ randomUnitFloatOfWord true (2 ^ 64 - 1) ∧
      randomUnitFloatOfWord true (2 ^ 64 - 1) < 1) ∧
    (0 ≤ randomUnitFloatOfWord false (2 ^ 32 - 1) ∧
      randomUnitFloatOfWord false (2 ^ 32 - 1) < 1) := by
  have h1 := claim_C4_unit_interval (E := Unit) true (2 ^ 64 - 1)
    (fun h => absurd h (by decide))
  have h2 := claim_C4_unit_interval (E := Unit) false (2 ^ 32 - 1)
    (fun _ => by norm_num)
  exact ⟨⟨h1.2.1, h1.2.2.1⟩, ⟨h2.2.1, h2.2.2.1⟩⟩

/-- C3: for every probability q in [0, 1], shouldExecuteThrottled performs
exactly one unit-float draw and returns whether the draw is strictly below q;
consequently, whatever the draw, probability 0 yields false and probability 1
yields true. -/
theorem claim_C3_shouldExecute {E : Type} (q : ℚ) (h0 : 0 ≤ q) (h1 : q ≤ 1)
    (hi64 : Bool) (u : Nat) (hu : hi64 = false → u < 2 ^ 32) :
    shouldExecuteThrottled (E := E) (.num q) hi64 (.ok u) =
      (.ok (decide (randomUnitFloatOfWord hi64 u < q)), 1) ∧
    shouldExecuteThrottled (E := E) (.num 0) hi64 (.ok u) = (.ok false, 1) ∧
    shouldExecuteThrottled (E := E) (.num 1) hi64 (.ok u) = (.ok true, 1) := by
  refine ⟨?_, ?_, ?_⟩
  · have hval : validateProbability (.num q) = true := by
      simp [validateProbability, h0, h1]
    simp [shouldExecuteThrottled, hval, jsNumOf]
  · have hval : validateProbability (.num 0) = true := by simp [validateProbability]
    have hge := randomUnitFloat_nonneg hi64 u
    simp [shouldExecuteThrottled, hval, jsNumOf, not_lt, hge]
  · have hval : validateProbability (.num 1) = true := by simp [validateProbability]
    have hlt := randomUnitFloat_lt_one hi64 u hu
    simp [shouldExecuteThrottled, hval, jsNumOf, hlt]

/-- Witness for C3 at q = 1/2 on the high-precision path with a zero word:
the call returns the comparison result of the draw with 1/2 after exactly one
draw, and the 0- and 1-probability calls return false and true there. -/
theorem claim_C3_witness :
    shouldExecuteThrottled (E := Unit) (.num (1 / 2)) true (.ok 0) =
      (.ok (decide (randomUnitFloatOfWord true 0 < 1 / 2)), 1) ∧
    shouldExecuteThrottled (E := Unit) (.num 0) true (.ok 0) = (.ok false, 1) ∧
    shouldExecuteThrottled (E := Unit) (.num 1) true (.ok 0) = (.ok true, 1) :=
  claim_C3_shouldExecute (1 / 2) (by norm_num) (by norm_num) true 0
    (fun h => absurd h (by decide))

/-- C1: for every valid pair min < max, a successful getSecureRandomInt run
over a stream of raw draws behaves as pure rejection sampling: with
range = max - min + 1 and mask the minimal bit mask of the form 2^j - 1
covering range - 1, every draw before the last is rejected because its masked
value is at least range, the last masked value is below range, and the result
is min plus that masked value — the accepted value is the masked draw itself,
never a modulo reduction of it. -/
theorem claim_C1_rejection_sampling (mi ma : Int)
    (h1 : MIN_SAFE_INTEGER ≤ mi) (h2 : ma ≤ MAX_SAFE_INTEGER) (hlt : mi < ma)
    (fuel : Nat) (stream : Nat → Nat) (r : Int) (k : Nat)
    (hrun : getSecureRandomInt (E := Unit) (.num (mi : ℚ)) (.num (ma : ℚ)) fuel
      (fun j => Except.ok (stream j)) = some (.ok r, k)) :
    ((ma - mi + 1).toNat - 1 ≤ leastMask ((ma - mi + 1).toNat - 1) ∧
      (∀ n, (ma - mi + 1).toNat - 1 < 2 ^ n →
        leastMask ((ma - mi + 1).toNat - 1) < 2 ^ n) ∧
      ∃ j, leastMask ((ma - mi + 1).toNat - 1) = 2 ^ j - 1) ∧
    1 ≤ k ∧
    (∀ j, j < k - 1 →
      (ma - mi + 1).toNat ≤ stream j &&& leastMask ((ma - mi + 1).toNat - 1)) ∧
    stream (k - 1) &&& leastMask ((ma - mi + 1).toNat - 1) < (ma - mi + 1).toNat ∧
    r = mi + ((stream (k - 1) &&& leastMask ((ma - mi + 1).toNat - 1) : Nat) : Int) := by
  rw [getSecureRandomInt_eq_of_valid mi ma h1 h2 hlt.le] at hrun
  have hr : (ma - mi + 1).toNat ≠ 1 := by omega
  rw [if_neg hr] at hrun
  refine ⟨⟨leastMask_le _, leastMask_min _, leastMask_pow_form _⟩, ?_⟩
  cases hs : sampleLoop (E := Unit) (ma - mi + 1).toNat
      (leastMask ((ma - mi + 1).toNat - 1)) (fun j => Except.ok (stream j)) fuel 0 with
  | none => rw [hs] at hrun; simp at hrun
  | some p =>
    obtain ⟨res, k2⟩ := p
    cases res with
    | error e => rw [hs] at hrun; simp at hrun
    | ok v =>
      rw [hs] at hrun
      simp at hrun
      obtain ⟨hvr, hk⟩ := hrun
      subst hk
      obtain ⟨hik, hveq, hvlt, hrej⟩ := sampleLoop_stream_char _ _ stream fuel 0 v k2 hs
      subst hveq
      exact ⟨by omega, fun j hj => hrej j (Nat.zero_le j) hj, hvlt, hvr.symm⟩

/-- Witness for C1 mirroring the repo's rejection-sampling test: min 0,
max 20 (range 21, mask 31), first draw 25 (masked 25, rejected), second draw
10 (masked 10, accepted), so the run returns 10 after exactly 2 draws. -/
theorem claim_C1_witness :
    (getSecureRandomInt (E := Unit) (.num ((0 : Int) : ℚ)) (.num ((20 : Int) : ℚ)) 5
      (fun j => Except.ok (if j = 0 then 25 else 10)) = some (.ok 10, 2)) ∧
    1 ≤ 2 ∧
    (∀ j, j < 2 - 1 →
      ((20 : Int) - (0 : Int) + 1).toNat ≤
        (if j = 0 then 25 else 10) &&& leastMask (((20 : Int) - (0 : Int) + 1).toNat - 1)) ∧
    (if (2 - 1 : Nat) = 0 then 25 else 10) &&&
        leastMask (((20 : Int) - (0 : Int) + 1).toNat - 1) <
      ((20 : Int) - (0 : Int) + 1).toNat ∧
    (10 : Int) = (0 : Int) +
      (((if (2 - 1 : Nat) = 0 then 25 else 10) &&&
        leastMask (((20 : Int) - (0 : Int) + 1).toNat - 1) : Nat) : Int) := by
  have hrun : getSecureRandomInt (E := Unit) (.num ((0 : Int) : ℚ))
      (.num ((20 : Int) : ℚ)) 5 (fun j => Except.ok (if j = 0 then 25 else 10)) =
      some (.ok 10, 2) := by rfl
  have h := claim_C1_rejection_sampling 0 20 (by decide) (by decide) (by decide) 5
    (fun j => if j = 0 then 25 else 10) 10 2 hrun
  exact ⟨hrun, h.2.1, h.2.2.1, h.2.2.2.1, h.2.2.2.2⟩

/-- C6: for every length in [1, 1024], generateSecureId consults the entropy
source only at byte count ceil(length/2), renders those bytes as lowercase hex
pairs and truncates to exactly length characters; the output is fully
determined by the entropy bytes, so a fixed stream gives a reproducible
prefix (e.g. bytes 0xAB at length 3 give "aba", shown in the witness). -/
theorem claim_C6_generateSecureId {E : Type} (l : Nat) (h1 : 1 ≤ l) (h2 : l ≤ 1024)
    (fill : Nat → Except E (List Nat)) (bytes : List Nat)
    (hfill : fill (idBytesNeeded l) = .ok bytes)
    (hlen : bytes.length = idBytesNeeded l)
    (hb : ∀ b ∈ bytes, b < 256) :
    idBytesNeeded l = (l + 1) / 2 ∧
    generateSecureId (.num (l : ℚ)) fill =
      (.ok (String.mk ((bytesToHexChars bytes).take l)), 1) ∧
    (String.mk ((bytesToHexChars bytes).take l)).length = l ∧
    ∀ c ∈ (bytesToHexChars bytes).take l, isLowerHexDigit c = true := by
  refine ⟨rfl, generateSecureId_ok_char l h1 h2 fill bytes hfill,
    generateSecureId_length l bytes hlen, ?_⟩
  intro c hc
  exact bytesToHexChars_mem bytes hb c (List.take_subset _ _ hc)

/-- Witness for C6 mirroring the repo's odd-length test: length 3 with every
entropy byte 0xAB yields exactly "aba" in one entropy-source call. -/
theorem claim_C6_witness :
    generateSecureId (E := Unit) (.num ((3 : Nat) : ℚ)) (fun n => .ok (List.replicate n 171)) =
      (.ok (String.mk ((bytesToHexChars [171, 171]).take 3)), 1) ∧
    String.mk ((bytesToHexChars [171, 171]).take 3) = "aba" ∧
    (String.mk ((bytesToHexChars [171, 171]).take 3)).length = 3 := by
  have h := claim_C6_generateSecureId (E := Unit) 3 (by decide) (by decide)
    (fun n => .ok (List.replicate n 171)) [171, 171] rfl rfl (by decide)
  exact ⟨h.2.1, by rfl, h.2.2.1⟩

/-- C10: calling generateSecureId with no length argument applies the default
length 12 (stated by the in-repo API docs and pinned by both test suites,
though absent from the spec's [1,1024] contract): the result is a string of
exactly 12 lowercase hexadecimal characters. -/
theorem claim_C10_default_length {E : Type} (fill : Nat → Except E (List Nat))
    (bytes : List Nat) (hfill : fill 6 = .ok bytes) (hlen : bytes.length = 6)
    (hb : ∀ b ∈ bytes, b < 256) :
    DEFAULT_ID_LENGTH = 12 ∧
    generateSecureIdNoArg fill =
      (.ok (String.mk ((bytesToHexChars bytes).take 12)), 1) ∧
    (String.mk ((bytesToHexChars bytes).take 12)).length = 12 ∧
    ∀ c ∈ (bytesToHexChars bytes).take 12, isLowerHexDigit c = true := by
  refine ⟨rfl, ?_, generateSecureId_length 12 bytes hlen, ?_⟩
  · exact generateSecureId_ok_char 12 (by norm_num) (by norm_num) fill bytes hfill
  · intro c hc
    exact bytesToHexChars_mem bytes hb c (List.take_subset _ _ hc)

/-- Witness for C10: with every entropy byte 0xAB, the no-argument call
returns the 12-character string "abababababab". -/
theorem claim_C10_witness :
    generateSecureIdNoArg (E := Unit) (fun n => .ok (List.replicate n 171)) =
      (.ok (String.mk ((bytesToHexChars [171, 171, 171, 171, 171, 171]).take 12)), 1) ∧
    String.mk ((bytesToHexChars [171, 171, 171, 171, 171, 171]).take 12) =
      "abababababab" := by
  have h := claim_C10_default_length (E := Unit) (fun n => .ok (List.replicate n 171))
    [171, 171, 171, 171, 171, 171] rfl rfl (by decide)
  exact ⟨h.2.1, by rfl⟩

/-- C5: for every 16-byte fallback entropy draw, generateSecureUUID patches
the version nibble of byte 6 to 0100 and the top two bits of byte 8 to 10
unconditionally, so the rendered 36-character 8-4-4-4-12 string always has
the character 4 at index 14 and one of 8, 9, a, b at index 19, with every
other non-hyphen character a lowercase hex digit — including for all-zero
and all-0xFF draws (the witness shows the all-0xFF case). -/
theorem claim_C5_uuid_fallback {E : Type}
    (b0 b1 b2 b3 b4 b5 b6 b7 b8 b9 b10 b11 b12 b13 b14 b15 : Nat)
    (h0 : b0 < 256) (h1 : b1 < 256) (h2 : b2 < 256) (h3 : b3 < 256)
    (h4 : b4 < 256) (h5 : b5 < 256) (h6 : b6 < 256) (h7 : b7 < 256)
    (h8 : b8 < 256) (h9 : b9 < 256) (h10 : b10 < 256) (h11 : b11 < 256)
    (h12 : b12 < 256) (h13 : b13 < 256) (h14 : b14 < 256) (h15 : b15 < 256)
    (fill : Nat → Except E (List Nat))
    (hfill : fill 16 =
      .ok [b0, b1, b2, b3, b4, b5, b6, b7, b8, b9, b10, b11, b12, b13, b14, b15]) :
    generateSecureUUID none fill =
      (.ok (generateUuidV4Fallback
        [b0, b1, b2, b3, b4, b5, b6, b7, b8, b9, b10, b11, b12, b13, b14, b15]), 1) ∧
    (generateUuidV4Fallback
      [b0, b1, b2, b3, b4, b5, b6, b7, b8, b9, b10, b11, b12, b13, b14, b15]).length = 36 ∧
    uuidShapeOk (generateUuidV4Fallback
      [b0, b1, b2, b3, b4, b5, b6, b7, b8, b9, b10, b11, b12, b13, b14, b15]).data = true ∧
    (generateUuidV4Fallback
      [b0, b1, b2, b3, b4, b5, b6, b7, b8, b9, b10, b11, b12, b13, b14, b15]).data.getD
        14 ' ' = '4' ∧
    ((generateUuidV4Fallback
        [b0, b1, b2, b3, b4, b5, b6, b7, b8, b9, b10, b11, b12, b13, b14, b15]).data.getD
          19 ' ' = '8' ∨
     (generateUuidV4Fallback
        [b0, b1, b2, b3, b4, b5, b6, b7, b8, b9, b10, b11, b12, b13, b14, b15]).data.getD
          19 ' ' = '9' ∨
     (generateUuidV4Fallback
        [b0, b1, b2, b3, b4, b5, b6, b7, b8, b9, b10, b11, b12, b13, b14, b15]).data.getD
          19 ' ' = 'a' ∨
     (generateUuidV4Fallback
        [b0, b1, b2, b3, b4, b5, b6, b7, b8, b9, b10, b11, b12, b13, b14, b15]).data.getD
          19 ' ' = 'b') := by
  refine ⟨by simp [generateSecureUUID, hfill], ?_, ?_, ?_, ?_⟩
  · rw [show (generateUuidV4Fallback
        [b0, b1, b2, b3, b4, b5, b6, b7, b8, b9, b10, b11, b12, b13, b14, b15]).length =
      (generateUuidV4Fallback
        [b0, b1, b2, b3, b4, b5, b6, b7, b8, b9, b10, b11, b12, b13, b14, b15]).data.length
      from rfl]
    rw [generateUuidV4Fallback_data]
    rfl
  · rw [generateUuidV4Fallback_data]
    rcases patch8_div b8 with hv | hv | hv | hv <;>
      simp [uuidShapeOk, isLowerHexDigit_div h0, isLowerHexDigit_div h1,
        isLowerHexDigit_div h2, isLowerHexDigit_div h3, isLowerHexDigit_div h4,
        isLowerHexDigit_div h5, isLowerHexDigit_div h6, isLowerHexDigit_div h7,
        isLowerHexDigit_div h8, isLowerHexDigit_div h9, isLowerHexDigit_div h10,
        isLowerHexDigit_div h11, isLowerHexDigit_div h12, isLowerHexDigit_div h13,
        isLowerHexDigit_div h14, isLowerHexDigit_div h15,
        isLowerHexDigit_div (patch6_lt b6), isLowerHexDigit_div (patch8_lt b8),
        isLowerHexDigit_mod, patch6_div, hv] <;> decide
  · rw [generateUuidV4Fallback_data]
    exact patch6_div b6
  · rw [generateUuidV4Fallback_data]
    exact patch8_div b8

/-- Witness for C5 at the degenerate all-0xFF draw: the fallback UUID is
exactly ffffffff-ffff-4fff-bfff-ffffffffffff, with the patched version and
variant characters in place. -/
theorem claim_C5_witness :
    generateSecureUUID (E := Unit) none (fun _ => .ok (List.replicate 16 255)) =
      (.ok (generateUuidV4Fallback
        [255, 255, 255, 255, 255, 255, 255, 255,
         255, 255, 255, 255, 255, 255, 255, 255]), 1) ∧
    generateUuidV4Fallback
        [255, 255, 255, 255, 255, 255, 255, 255,
         255, 255, 255, 255, 255, 255, 255, 255] =
      "ffffffff-ffff-4fff-bfff-ffffffffffff" ∧
    uuidShapeOk (generateUuidV4Fallback
      [255, 255, 255, 255, 255, 255, 255, 255,
       255, 255, 255, 255, 255, 255, 255, 255]).data = true := by
  have h := claim_C5_uuid_fallback (E := Unit)
    255 255 255 255 255 255 255 255 255 255 255 255 255 255 255 255
    (by decide) (by decide) (by decide) (by decide) (by decide) (by decide)
    (by decide) (by decide) (by decide) (by decide) (by decide) (by decide)
    (by decide) (by decide) (by decide) (by decide)
    (fun _ => .ok (List.replicate 16 255)) rfl
  exact ⟨h.1, by rfl, h.2.2.1⟩

/-- C7: every operation taking a caller argument validates it before touching
the entropy source: whenever validation rejects the argument the operation
returns InvalidParameter with an entropy-call count of zero, for every
possible source; and the concrete invalid inputs the spec lists — 0, 1025,
the non-integer 5.5, NaN, Infinity, a negative value, out-of-range
probabilities, and wrong types — all fail validation. -/
theorem claim_C7_invalid_parameter_no_draw {E : Type}
    (fill : Nat → Except E (List Nat)) (draw : Nat → Except E Nat)
    (drawOne : Except E Nat) (hi64 : Bool) (fuel : Nat) :
    (∀ v : JSVal, validateNumericParam v 1 1024 = false →
      generateSecureId v fill = (.error .invalidParameter, 0)) ∧
    (∀ mn mx : JSVal,
      (validateNumericParam mn (MIN_SAFE_INTEGER : ℚ) (MAX_SAFE_INTEGER : ℚ) &&
       validateNumericParam mx (jsNumOf mn) (MAX_SAFE_INTEGER : ℚ)) = false →
      getSecureRandomInt mn mx fuel draw = some (.error .invalidParameter, 0)) ∧
    (∀ p : JSVal, validateProbability p = false →
      shouldExecuteThrottled p hi64 drawOne = (.error .invalidParameter, 0)) ∧
    validateNumericParam (.num 0) 1 1024 = false ∧
    validateNumericParam (.num 1025) 1 1024 = false ∧
    validateNumericParam (.num (11 / 2)) 1 1024 = false ∧
    validateNumericParam .nan 1 1024 = false ∧
    validateNumericParam .posInf 1 1024 = false ∧
    validateNumericParam (.num (-5)) 1 1024 = false ∧
    validateNumericParam .undef 1 1024 = false ∧
    validateNumericParam .nullVal 1 1024 = false ∧
    validateNumericParam (.strVal "string") 1 1024 = false ∧
    validateNumericParam (.boolVal true) 1 1024 = false ∧
    validateNumericParam .objVal 1 1024 = false ∧
    validateNumericParam .arrVal 1 1024 = false ∧
    validateProbability (.num (11 / 10)) = false ∧
    validateProbability (.num (-1 / 10)) = false ∧
    validateProbability .nan = false := by
  refine ⟨?_, ?_, ?_, by decide, by decide, ?_, rfl, rfl, by decide, rfl, rfl, rfl,
    rfl, rfl, rfl, ?_, ?_, rfl⟩
  · intro v hv
    simp [generateSecureId, hv]
  · intro mn mx hv
    simp [getSecureRandomInt, hv]
  · intro p hp
    simp [shouldExecuteThrottled, hp]
  · have hden : ((11 / 2 : ℚ)).den = 2 := by norm_num
    simp [validateNumericParam, hden]
  · have hgt : ¬((11 / 10 : ℚ) ≤ 1) := by norm_num
    simp [validateProbability, hgt]
  · have hneg : ¬((0 : ℚ) ≤ -1 / 10) := by norm_num
    simp [validateProbability, hneg]

/-- Witness for C7: with an entropy source that would fail loudly if ever
consulted, invalid inputs to each operation still yield InvalidParameter with
zero source calls — so no entropy was drawn. -/
theorem claim_C7_witness :
    generateSecureId (E := Unit) (.num 0) (fun _ => .error ()) =
      (.error .invalidParameter, 0) ∧
    getSecureRandomInt (E := Unit) .nan (.num 10) 5 (fun _ => .error ()) =
      some (.error .invalidParameter, 0) ∧
    shouldExecuteThrottled (E := Unit) (.num 2) true (.error ()) =
      (.error .invalidParameter, 0) := by
  have h := claim_C7_invalid_parameter_no_draw (E := Unit) (fun _ => .error ())
    (fun _ => .error ()) (.error ()) true 5
  exact ⟨h.1 (.num 0) (by decide), h.2.1 .nan (.num 10) (by rfl),
    h.2.2.1 (.num 2) (by decide)⟩

/-- C8: when the entropy source exists but a draw fails at runtime, every
operation propagates that very error value unchanged — the result wraps the
same underlying error e — after exactly one source call: it is never retried,
never downgraded, and never replaced by a generated value. -/
theorem claim_C8_entropy_error_propagates {E : Type} (e : E)
    (l : Nat) (hl1 : 1 ≤ l) (hl2 : l ≤ 1024)
    (mi ma : Int) (h1 : MIN_SAFE_INTEGER ≤ mi) (h2 : ma ≤ MAX_SAFE_INTEGER)
    (hlt : mi < ma)
    (q : ℚ) (hq0 : 0 ≤ q) (hq1 : q ≤ 1) (hi64 : Bool) (fuel : Nat)
    (hfuel : 1 ≤ fuel) :
    generateSecureId (.num (l : ℚ)) (fun _ => .error e) =
      (.error (.entropyErr e), 1) ∧
    generateSecureUUID none (fun _ => .error e) = (.error (.entropyErr e), 1) ∧
    getSecureRandomInt (.num (mi : ℚ)) (.num (ma : ℚ)) fuel (fun _ => .error e) =
      some (.error (.entropyErr e), 1) ∧
    getSecureRandom hi64 (.error e) = (.error (.entropyErr e), 1) ∧
    shouldExecuteThrottled (.num q) hi64 (.error e) = (.error (.entropyErr e), 1) := by
  refine ⟨?_, by simp [generateSecureUUID], ?_, rfl, ?_⟩
  · have hv := validateNumericParam_natCast_true l 1 1024 (by exact_mod_cast hl1)
      (by exact_mod_cast hl2)
    simp [generateSecureId, hv]
  · rw [getSecureRandomInt_eq_of_valid mi ma h1 h2 hlt.le]
    have hr : (ma - mi + 1).toNat ≠ 1 := by omega
    rw [if_neg hr]
    obtain ⟨f, rfl⟩ : ∃ f, fuel = f + 1 := ⟨fuel - 1, by omega⟩
    simp [sampleLoop]
  · have hval : validateProbability (.num q) = true := by
      simp [validateProbability, hq0, hq1]
    simp [shouldExecuteThrottled, hval]

/-- Witness for C8 with a string-typed underlying error: each operation
returns exactly that error, wrapped, after one source call. -/
theorem claim_C8_witness :
    generateSecureId (E := String) (.num ((12 : Nat) : ℚ)) (fun _ => .error "fail") =
      (.error (.entropyErr "fail"), 1) ∧
    generateSecureUUID (E := String) none (fun _ => .error "fail") =
      (.error (.entropyErr "fail"), 1) ∧
    getSecureRandomInt (E := String) (.num ((1 : Int) : ℚ)) (.num ((10 : Int) : ℚ)) 1
      (fun _ => .error "fail") = some (.error (.entropyErr "fail"), 1) ∧
    getSecureRandom (E := String) true (.error "fail") =
      (.error (.entropyErr "fail"), 1) ∧
    shouldExecuteThrottled (E := String) (.num 1) true (.error "fail") =
      (.error (.entropyErr "fail"), 1) :=
  claim_C8_entropy_error_propagates "fail" 12 (by decide) (by decide) 1 10
    (by decide) (by decide) (by decide) 1 (by norm_num) le_rfl true 1 le_rfl

end SecurityKit
